import Mathlib

set_option maxHeartbeats 1000000
set_option linter.unreachableTactic false
set_option linter.unusedTactic false

namespace Kanban

/-! Shallow embedding of the board state-transition engine of `src/app/page.tsx`.

The source is a React page; the engine consists of the pure helpers
`sortCards`, `onDragEnd`, and the board-store operations `addColumn`,
`updateColumn`, `addCard`, `updateCard`, `deleteCard`, `deleteColumn`,
`addBoard`, `deleteBoard`.  React state (`boards`, `activeBoardId`) is
modelled as an explicit `KanbanState` record threaded through each
operation; `setBoards` / `setActiveBoardId` become the returned record.
Identifier generation (`Date.now()`) is an external input and is passed
as an explicit argument. -/

/-- `type Priority = "High" | "Medium" | "Low"` (page.tsx line 47). -/
inductive Priority where
  | High
  | Medium
  | Low
deriving DecidableEq

/-- `type CardData` (page.tsx lines 48–55).  `priority : Priority | null` and
`deadline : string | null` become `Option`; the optional `description?`
field becomes `Option String` as well. -/
structure CardData where
  id : String
  title : String
  description : Option String
  isCompleted : Bool
  priority : Option Priority
  deadline : Option String
deriving DecidableEq

/-- `type ColumnData` (page.tsx lines 57–63); the optional `limit?: number`
becomes `Option Nat`. -/
structure ColumnData where
  id : String
  title : String
  color : String
  limit : Option Nat
  cards : List CardData
deriving DecidableEq

/-- `type BoardData` (page.tsx lines 65–69). -/
structure BoardData where
  id : String
  name : String
  columns : List ColumnData
deriving DecidableEq

/-- The two pieces of React state the engine transforms:
`const [boards, setBoards] = useState<BoardData[]>([])` and
`const [activeBoardId, setActiveBoardId] = useState<string | null>(null)`
(page.tsx lines 154–155). -/
structure KanbanState where
  boards : List BoardData
  activeBoardId : Option String
deriving DecidableEq

/-- `const priorityOrder: Record<Priority, number> = { High: 1, Medium: 2, Low: 3 }`
(page.tsx line 143). -/
def priorityOrder : Priority → Int
  | .High => 1
  | .Medium => 2
  | .Low => 3

/-- The comparator passed to `Array.prototype.sort` inside `sortCards`
(page.tsx lines 144–150).  `a.priority && b.priority` tests both fields
non-null (priorities are non-empty strings, hence truthy in JS). -/
def cardCompare (a b : CardData) : Int :=
  if a.isCompleted != b.isCompleted then (if a.isCompleted then 1 else -1)
  else
    match a.priority, b.priority with
    | some pa, some pb => priorityOrder pa - priorityOrder pb
    | some _, none => -1
    | none, some _ => 1
    | none, none => 0

/-- `a` may be placed no later than `b` by the comparator. -/
def cardLe (a b : CardData) : Prop := cardCompare a b ≤ 0

instance : DecidableRel cardLe := fun a b => by unfold cardLe; infer_instance

/-- `sortCards` (page.tsx lines 142–151): `[...cards].sort(comparator)`.
JavaScript `Array.prototype.sort` is required to be stable, and
`cardCompare` is a total preorder (see `cardLe_iff_rank`), so the result
is the unique stable sort of `cards` under the comparator.  It is
modelled by insertion sort, which is stable for the same relation. -/
def sortCards (cards : List CardData) : List CardData :=
  cards.insertionSort cardLe

/-- A single numeric key equivalent to the comparator: completed cards rank
8 above incomplete ones, priorities rank 1–3, a missing priority ranks 4. -/
def rank (c : CardData) : Int :=
  (if c.isCompleted then 8 else 0) +
    (match c.priority with
     | some p => priorityOrder p
     | none => 4)

/-- The priority part of the Sort Policy ordering as worded in the spec
(§4.1, rules 2–3): a set priority sorts before none, and among set
priorities High before Medium before Low. -/
def specSortRank : Option Priority → Nat
  | some .High => 0
  | some .Medium => 1
  | some .Low => 2
  | none => 3

/-- The Sort Policy ordering as worded in the spec (§4.1, rules 1–3):
`specSortLe a b` holds when `a` may appear no later than `b` — either `a`
is incomplete and `b` completed (rule 1), or they have equal completion
state and `a`'s priority ranks no worse than `b`'s (rules 2–3). -/
def specSortLe (a b : CardData) : Prop :=
  (a.isCompleted = false ∧ b.isCompleted = true) ∨
    (a.isCompleted = b.isCompleted ∧ specSortRank a.priority ≤ specSortRank b.priority)

/-! ### Board store operations (page.tsx lines 294–406)

Each React setter becomes a pure `KanbanState → KanbanState` function; the
generated ids (`Date.now()`-based strings) are explicit arguments.  The JS
comparison `board.id === activeBoardId` between a string and a nullable
string is `some board.id == s.activeBoardId`. -/

/-- `addColumn` (page.tsx lines 298–308). -/
def addColumn (s : KanbanState) (newId title color : String) (limit : Option Nat) :
    KanbanState :=
  { s with
    boards := s.boards.map fun board =>
      if some board.id == s.activeBoardId then
        { board with columns := board.columns ++ [⟨newId, title, color, limit, []⟩] }
      else board }

/-- The `updatedData` argument of `updateColumn`: `{title, color, limit?}`.
Its only call site (page.tsx line 605) passes all three keys, so the spread
`{ ...col, ...updatedData }` replaces all three fields (an absent `limit`
is the key with value `undefined`, which still overwrites). -/
structure ColumnUpdate where
  title : String
  color : String
  limit : Option Nat
deriving DecidableEq

/-- `updateColumn` (page.tsx lines 310–320). -/
def updateColumn (s : KanbanState) (columnId : String) (u : ColumnUpdate) :
    KanbanState :=
  { s with
    boards := s.boards.map fun board =>
      if some board.id == s.activeBoardId then
        { board with
          columns := board.columns.map fun col =>
            if col.id == columnId then
              { col with title := u.title, color := u.color, limit := u.limit }
            else col }
      else board }

/-- The `cardData` argument of `addCard`: `Omit<CardData, "id" | "isCompleted">`
(see the `CardFormDialog` save handler, page.tsx line 850, which passes all
four keys with `priority` and `deadline` possibly null). -/
structure NewCardData where
  title : String
  description : Option String
  priority : Option Priority
  deadline : Option String
deriving DecidableEq

/-- `addCard` (page.tsx lines 322–338): builds the card with a fresh id and
`isCompleted: false`, prepends it to the column, then applies the Sort
Policy. -/
def addCard (s : KanbanState) (columnId newId : String) (d : NewCardData) :
    KanbanState :=
  { s with
    boards := s.boards.map fun board =>
      if some board.id == s.activeBoardId then
        { board with
          columns := board.columns.map fun col =>
            if col.id == columnId then
              { col with
                cards := sortCards
                  (⟨newId, d.title, d.description, false, d.priority, d.deadline⟩ :: col.cards) }
            else col }
      else board }

/-- The `updatedData` argument of `updateCard`: `Partial<Omit<CardData, "id">>`.
A `none` field is an absent key, left unchanged by the object spread. -/
structure CardPatch where
  title : Option String
  description : Option (Option String)
  isCompleted : Option Bool
  priority : Option (Option Priority)
  deadline : Option (Option String)
deriving DecidableEq

/-- The object spread `{ ...card, ...updatedData }` (page.tsx line 346). -/
def applyPatch (card : CardData) (u : CardPatch) : CardData :=
  { card with
    title := u.title.getD card.title
    description := u.description.getD card.description
    isCompleted := u.isCompleted.getD card.isCompleted
    priority := u.priority.getD card.priority
    deadline := u.deadline.getD card.deadline }

/-- `updateCard` (page.tsx lines 340–356): merges the patch into the matching
card, then applies the Sort Policy to the column — note the sort runs even
when no card matches `cardId`. -/
def updateCard (s : KanbanState) (columnId cardId : String) (u : CardPatch) :
    KanbanState :=
  { s with
    boards := s.boards.map fun board =>
      if some board.id == s.activeBoardId then
        { board with
          columns := board.columns.map fun col =>
            if col.id == columnId then
              { col with
                cards := sortCards (col.cards.map fun card =>
                  if card.id == cardId then applyPatch card u else card) }
            else col }
      else board }

/-- `deleteCard` (page.tsx lines 358–373): filters the card out; no re-sort. -/
def deleteCard (s : KanbanState) (columnId cardId : String) : KanbanState :=
  { s with
    boards := s.boards.map fun board =>
      if some board.id == s.activeBoardId then
        { board with
          columns := board.columns.map fun col =>
            if col.id == columnId then
              { col with cards := col.cards.filter fun card => !(card.id == cardId) }
            else col }
      else board }

/-- `deleteColumn` (page.tsx lines 375–384). -/
def deleteColumn (s : KanbanState) (columnId : String) : KanbanState :=
  { s with
    boards := s.boards.map fun board =>
      if some board.id == s.activeBoardId then
        { board with columns := board.columns.filter fun c => !(c.id == columnId) }
      else board }

/-- `deleteBoard` (page.tsx lines 400–406).  The new pointer is
`newBoards[0]?.id || null`, which uses JavaScript truthiness: when the first
remaining board's id is the empty string (falsy), the pointer becomes null
rather than that id. -/
def deleteBoard (s : KanbanState) (boardId : String) : KanbanState :=
  let newBoards := s.boards.filter fun b => !(b.id == boardId)
  { boards := newBoards
    activeBoardId :=
      if s.activeBoardId == some boardId then
        match newBoards.head? with
        | some b => if b.id == "" then none else some b.id
        | none => none
      else s.activeBoardId }

/-! ### Drag reducer (page.tsx lines 245–292) -/

/-- A drop endpoint of a `@hello-pangea/dnd` drop result. -/
structure DropPos where
  droppableId : String
  index : Nat
deriving DecidableEq

/-- The `type` field of a drop result. -/
inductive DragType where
  | COLUMN
  | CARD
deriving DecidableEq

/-- The drop outcome `{ destination, source, type }` passed to `onDragEnd`;
`destination` is null when the gesture is cancelled. -/
structure DragResult where
  itemType : DragType
  source : DropPos
  destination : Option DropPos
deriving DecidableEq

/-- `array.splice(i, 0, a)`: JavaScript clamps the start position to the
array length, so the element is always inserted. -/
def spliceInsert (l : List α) (i : Nat) (a : α) : List α :=
  l.insertIdx (min i l.length) a

/-- `onDragEnd` (page.tsx lines 245–292).  The reference test
`startCol === finishCol` holds exactly when the two `find` calls matched the
same id, so it is modelled as id equality.  An out-of-range source index
makes `splice(i, 1)` remove nothing and destructure `undefined`, which is
then spliced into the card (or column) array — JavaScript sort moves the
`undefined` hole to the end without consulting the comparator, leaving an
array containing a value with no counterpart in this typed embedding.  That
corner is modelled as returning the state unchanged in the CARD branches
and as skipping the insertion in the COLUMN branch; either way only the
active board could differ from the real code, and library-produced events
always carry in-range indices, so no claim depends on it. -/
def onDragEnd (s : KanbanState) (result : DragResult) : KanbanState :=
  match result.destination with
  | none => s
  | some destination =>
    if destination.droppableId == result.source.droppableId &&
        destination.index == result.source.index then s
    else
      match s.boards.find? (fun b => some b.id == s.activeBoardId) with
      | none => s
      | some currentBoard =>
        match result.itemType with
        | .COLUMN =>
          let newColumnOrder :=
            match currentBoard.columns[result.source.index]? with
            | some reorderedColumn =>
                spliceInsert (currentBoard.columns.eraseIdx result.source.index)
                  destination.index reorderedColumn
            | none => currentBoard.columns.eraseIdx result.source.index
          let updatedBoard := { currentBoard with columns := newColumnOrder }
          { s with
            boards := s.boards.map fun b =>
              if some b.id == s.activeBoardId then updatedBoard else b }
        | .CARD =>
          match currentBoard.columns.find? (fun c => c.id == result.source.droppableId),
            currentBoard.columns.find? (fun c => c.id == destination.droppableId) with
          | some startCol, some finishCol =>
            if startCol.id == finishCol.id then
              match startCol.cards[result.source.index]? with
              | none => s
              | some reorderedCard =>
                let newCards :=
                  spliceInsert (startCol.cards.eraseIdx result.source.index)
                    destination.index reorderedCard
                let newCol := { startCol with cards := sortCards newCards }
                let newColumns := currentBoard.columns.map fun c =>
                  if c.id == newCol.id then newCol else c
                let updatedBoard := { currentBoard with columns := newColumns }
                { s with
                  boards := s.boards.map fun b =>
                    if some b.id == s.activeBoardId then updatedBoard else b }
            else
              match startCol.cards[result.source.index]? with
              | none => s
              | some movedCard =>
                let newStartCol :=
                  { startCol with
                    cards := sortCards (startCol.cards.eraseIdx result.source.index) }
                let newFinishCol :=
                  { finishCol with
                    cards := sortCards (spliceInsert finishCol.cards destination.index movedCard) }
                let newColumns := currentBoard.columns.map fun c =>
                  if c.id == newStartCol.id then newStartCol
                  else if c.id == newFinishCol.id then newFinishCol
                  else c
                let updatedBoard := { currentBoard with columns := newColumns }
                { s with
                  boards := s.boards.map fun b =>
                    if some b.id == s.activeBoardId then updatedBoard else b }
          | none, _ => s
          | _, none => s

/-! ### Scenario fixtures (spec §8) -/

/-- Card A: priority High, incomplete. -/
def cardA : CardData := ⟨"card-a", "Card A", none, false, some .High, none⟩

/-- Card B: priority Low, incomplete. -/
def cardB : CardData := ⟨"card-b", "Card B", none, false, some .Low, none⟩

/-- A board whose column "To Do" holds Card A then Card B. -/
def scenarioState : KanbanState :=
  { boards := [⟨"board-1", "Board", [⟨"col-todo", "To Do", "bg-rose-500/20", none,
      [cardA, cardB]⟩]⟩],
    activeBoardId := some "board-1" }

/-- A collection whose single column lists a completed card before an
incomplete one — an order the Sort Policy forbids. -/
def unsortedState : KanbanState :=
  { boards := [⟨"b1", "X", [⟨"c1", "Col", "bg", none,
      [⟨"cd", "done", none, true, none, none⟩,
       ⟨"co", "open", none, false, none, none⟩]⟩]⟩],
    activeBoardId := some "b1" }

/-- A collection whose active pointer names no present board. -/
def staleState : KanbanState :=
  { boards := [⟨"b1", "X", []⟩], activeBoardId := some "ghost" }

/-- A collection with an active board "b1" and a second board whose id is
the empty string. -/
def emptyIdState : KanbanState :=
  { boards := [⟨"b1", "X", []⟩, ⟨"", "Y", []⟩], activeBoardId := some "b1" }

/-- The frame property of a state transition: the active pointer, the
number of boards and every board whose id differs from the pointer are
untouched. -/
def framePreserved (s s' : KanbanState) : Prop :=
  s'.activeBoardId = s.activeBoardId ∧ s'.boards.length = s.boards.length ∧
    ∀ (i : Nat) (b : BoardData), s.boards[i]? = some b → ¬ some b.id = s.activeBoardId →
      s'.boards[i]? = some b

/-- A two-board fixture: "b1" is active, "b2" is not. -/
def twoBoardState : KanbanState :=
  { boards := [⟨"b1", "X", []⟩, ⟨"b2", "Y", []⟩], activeBoardId := some "b1" }

/-- Total number of cards across the columns of a board. -/
def boardCardCount (b : BoardData) : Nat :=
  (b.columns.map fun c => c.cards.length).sum

theorem cardLe_iff_rank {a b : CardData} : cardLe a b ↔ rank a ≤ rank b := by
  unfold cardLe cardCompare rank
  cases ha : a.isCompleted <;> cases hb : b.isCompleted <;>
    rcases hpa : a.priority with _ | pa <;> rcases hpb : b.priority with _ | pb <;>
      (try cases pa) <;> (try cases pb) <;> simp [priorityOrder] <;> omega

instance : IsTotal CardData cardLe :=
  ⟨fun a b => by
    rw [cardLe_iff_rank, cardLe_iff_rank]
    exact le_total _ _⟩

instance : IsTrans CardData cardLe :=
  ⟨fun _ _ _ hab hbc => by
    rw [cardLe_iff_rank] at hab hbc ⊢
    omega⟩

theorem sortCards_sorted (xs : List CardData) : (sortCards xs).Pairwise cardLe :=
  List.sorted_insertionSort cardLe xs

theorem sortCards_perm (xs : List CardData) : (sortCards xs).Perm xs :=
  List.perm_insertionSort cardLe xs

theorem sortCards_length (xs : List CardData) : (sortCards xs).length = xs.length :=
  List.length_insertionSort cardLe xs

theorem sortCards_of_sorted {xs : List CardData} (h : xs.Pairwise cardLe) :
    sortCards xs = xs :=
  List.Sorted.insertionSort_eq h

/-- Filtering by a class of mutually `cardLe`-related elements commutes with
`orderedInsert`: the inserted element lands in front of the filtered tail
exactly when it belongs to the class. -/
theorem filter_orderedInsert_of_class (p : CardData → Bool) (a : CardData)
    (l : List CardData) (hp : ∀ b, p b = true → p a = true → cardLe a b) :
    (l.orderedInsert cardLe a).filter p =
      if p a then a :: l.filter p else l.filter p := by
  induction l with
  | nil => by_cases hpa : p a <;> simp [List.orderedInsert, hpa]
  | cons b l ih =>
    rw [List.orderedInsert]
    by_cases hpa : p a
    · by_cases hr : cardLe a b
      · rw [if_pos hr]
        simp [List.filter_cons, hpa]
      · have hpb : p b = false := by
          by_contra h
          exact hr (hp b (by simpa using h) hpa)
        rw [if_neg hr]
        simp [List.filter_cons, hpa, hpb, ih]
    · by_cases hr : cardLe a b
      · rw [if_pos hr]
        simp [List.filter_cons, hpa]
      · rw [if_neg hr]
        by_cases hpb : p b <;> simp [List.filter_cons, hpa, hpb, ih]

/-- Insertion sort is stable: filtering by a class of mutually comparable
elements commutes with sorting. -/
theorem filter_insertionSort_of_class (p : CardData → Bool)
    (hp : ∀ a b, p a = true → p b = true → cardLe a b) :
    ∀ l : List CardData, (l.insertionSort cardLe).filter p = l.filter p
  | [] => rfl
  | a :: l => by
    rw [List.insertionSort,
      filter_orderedInsert_of_class p a _ (fun b hb ha => hp a b ha hb),
      filter_insertionSort_of_class p hp l]
    by_cases hpa : p a <;> simp [List.filter_cons, hpa]

theorem specSortLe_iff_cardLe (a b : CardData) : specSortLe a b ↔ cardLe a b := by
  rw [cardLe_iff_rank]
  unfold specSortLe specSortRank rank
  cases a.isCompleted <;> cases b.isCompleted <;>
    rcases a.priority with _ | pa <;> rcases b.priority with _ | pb <;>
      (try cases pa) <;> (try cases pb) <;> simp [priorityOrder] <;> omega

/-- Any two cards agreeing on completion state and priority are related by
the comparator (their comparison keys coincide). -/
theorem tied_class_le (b : Bool) (p : Option Priority) :
    ∀ x y : CardData,
      (x.isCompleted == b && x.priority == p) = true →
      (y.isCompleted == b && y.priority == p) = true → cardLe x y := by
  intro x y hx hy
  simp only [Bool.and_eq_true, beq_iff_eq] at hx hy
  rw [cardLe_iff_rank]
  unfold rank
  rw [hx.1, hy.1, hx.2, hy.2]

/-- C1: `sortCards` returns the stable sort of its input under the Sort
Policy ordering: the output is a permutation of the input, every pair of
output cards in order satisfies the policy ordering (incomplete before
completed; with equal completion a set priority before none; among set
priorities High before Medium before Low), and the cards tied under all
three rules (same completion state, same priority including both absent)
keep their relative input order. -/
theorem sortCards_stable_policy_sort (xs : List CardData) :
    (sortCards xs).Perm xs ∧
    (sortCards xs).Pairwise specSortLe ∧
    ∀ (b : Bool) (p : Option Priority),
      (sortCards xs).filter (fun c => c.isCompleted == b && c.priority == p)
        = xs.filter (fun c => c.isCompleted == b && c.priority == p) := by
  refine ⟨sortCards_perm xs, ?_, ?_⟩
  · exact (sortCards_sorted xs).imp (fun h => (specSortLe_iff_cardLe _ _).mpr h)
  · intro b p
    exact filter_insertionSort_of_class _ (tied_class_le b p) xs

/-- C8: the Sort Policy is idempotent: `sortCards (sortCards xs) = sortCards xs`
for every card sequence. -/
theorem sortCards_idempotent (xs : List CardData) :
    sortCards (sortCards xs) = sortCards xs :=
  sortCards_of_sorted (sortCards_sorted xs)

/-! ### Generic list helpers -/

theorem map_id_of : ∀ {l : List α} {f : α → α}, (∀ a ∈ l, f a = a) → l.map f = l
  | [], _, _ => rfl
  | a :: l, f, h => by
    rw [List.map_cons, h a (by simp), map_id_of (fun b hb => h b (by simp [hb]))]

/-- Replacing the matching elements of a list by `g` commutes with `find?`
when `g` preserves the predicate. -/
theorem find?_map_replace {p : α → Bool} {g : α → α}
    (hg : ∀ a, p a = true → p (g a) = true) :
    ∀ {l : List α} {x : α}, l.find? p = some x →
      (l.map fun a => if p a then g a else a).find? p = some (g x)
  | a :: l, x, h => by
    by_cases hpa : p a = true
    · rw [List.find?_cons_of_pos _ hpa] at h
      cases h
      rw [List.map_cons, if_pos hpa, List.find?_cons_of_pos _ (hg a hpa)]
    · rw [List.find?_cons_of_neg _ (by simpa using hpa)] at h
      rw [List.map_cons, if_neg (by simpa using hpa),
        List.find?_cons_of_neg _ (by simpa using hpa)]
      exact find?_map_replace hg h

/-- In a list with pairwise-distinct keys, a present key is matched exactly
once. -/
theorem countP_key_of_nodup {f : α → String} {k : String} :
    ∀ {l : List α} {x : α}, (l.map f).Nodup → x ∈ l → f x = k →
      l.countP (fun c => f c == k) = 1
  | a :: l, x, hnodup, hx, hk => by
    rw [List.map_cons, List.nodup_cons] at hnodup
    rcases List.mem_cons.mp hx with rfl | hx
    · rw [List.countP_cons_of_pos _ _ (by simp [hk]), List.countP_eq_zero.mpr,
        Nat.add_comm]
      intro c hc hcx
      exact hnodup.1 (by
        simp only [beq_iff_eq] at hcx
        rw [← hk] at hcx
        exact hcx ▸ List.mem_map_of_mem f hc)
    · rw [List.countP_cons_of_neg, countP_key_of_nodup hnodup.2 hx hk]
      simp only [beq_iff_eq]
      intro h
      rw [← hk] at h
      exact hnodup.1 (h ▸ List.mem_map_of_mem f hx)

/-- In a list with pairwise-distinct keys, two members with the same key are
equal. -/
theorem mem_key_unique {f : α → String} {l : List α} (h : (l.map f).Nodup)
    {x y : α} (hx : x ∈ l) (hy : y ∈ l) (hf : f x = f y) : x = y :=
  List.inj_on_of_nodup_map h hx hy hf

theorem length_spliceInsert (l : List α) (i : Nat) (a : α) :
    (spliceInsert l i a).length = l.length + 1 :=
  List.length_insertIdx _ _ (Nat.min_le_right i l.length)

/-- Replacing every column matching a key by a column of the same card
count preserves the total card count. -/
theorem sum_map_replace_eq {x' : ColumnData} {key : String} :
    ∀ {cols : List ColumnData},
      (∀ c ∈ cols, c.id = key → c.cards.length = x'.cards.length) →
      ((cols.map fun c => if c.id == key then x' else c).map
          fun c => c.cards.length).sum
        = (cols.map fun c => c.cards.length).sum
  | [], _ => rfl
  | c :: cols, h => by
    have ih := sum_map_replace_eq (fun d hd => h d (List.mem_cons_of_mem _ hd))
    by_cases hc : c.id = key
    · rw [List.map_cons, if_pos (beq_iff_eq.mpr hc), List.map_cons, List.sum_cons,
        List.map_cons, List.sum_cons, ih, h c (List.mem_cons_self _ _) hc]
    · rw [List.map_cons, if_neg (by simpa using hc), List.map_cons, List.sum_cons,
        List.map_cons, List.sum_cons, ih]

/-- Total card count after the cross-column double replacement, tracked by
the number of matches of each key: every `kx`-column loses one card, every
`ky`-column gains one. -/
theorem sum_map_replace2_count {x' y' : ColumnData} {kx ky : String} (hk : ¬ kx = ky) :
    ∀ {cols : List ColumnData},
      (∀ c ∈ cols, c.id = kx → c.cards.length = x'.cards.length + 1) →
      (∀ c ∈ cols, c.id = ky → c.cards.length + 1 = y'.cards.length) →
      ((cols.map fun c => if c.id == kx then x'
            else if c.id == ky then y' else c).map fun c => c.cards.length).sum
          + cols.countP (fun c => c.id == kx)
        = (cols.map fun c => c.cards.length).sum
          + cols.countP (fun c => c.id == ky)
  | [], _, _ => rfl
  | c :: cols, hx, hy => by
    have ih := sum_map_replace2_count hk
      (fun d hd => hx d (List.mem_cons_of_mem _ hd))
      (fun d hd => hy d (List.mem_cons_of_mem _ hd))
    have h1 := hx c (List.mem_cons_self _ _)
    have h2 := hy c (List.mem_cons_self _ _)
    by_cases hcx : c.id = kx
    · have hbx : (c.id == kx) = true := beq_iff_eq.mpr hcx
      have hby : ¬(c.id == ky) = true := by
        simp only [beq_iff_eq]
        intro h
        exact hk (hcx ▸ h)
      rw [List.map_cons, if_pos hbx, List.map_cons, List.sum_cons,
        List.countP_cons_of_pos (fun d => d.id == kx) cols hbx, List.map_cons, List.sum_cons,
        List.countP_cons_of_neg (fun d => d.id == ky) cols hby, h1 hcx]
      omega
    · have hbx : ¬(c.id == kx) = true := by simpa using hcx
      by_cases hcy : c.id = ky
      · have hby : (c.id == ky) = true := beq_iff_eq.mpr hcy
        rw [List.map_cons, if_neg hbx, if_pos hby, List.map_cons, List.sum_cons,
          List.countP_cons_of_neg (fun d => d.id == kx) cols hbx, List.map_cons, List.sum_cons,
          List.countP_cons_of_pos (fun d => d.id == ky) cols hby]
        have := h2 hcy
        omega
      · have hby : ¬(c.id == ky) = true := by simpa using hcy
        rw [List.map_cons, if_neg hbx, if_neg hby, List.map_cons, List.sum_cons,
          List.countP_cons_of_neg (fun d => d.id == kx) cols hbx, List.map_cons, List.sum_cons,
          List.countP_cons_of_neg (fun d => d.id == ky) cols hby]
        omega

/-! ### Claim theorems -/

/-- C6: on the scenario state — active board with column "To Do" holding
Card A (High, incomplete) then Card B (Low, incomplete) — adding Card C
with no priority yields card order [A, B, C], and then updating Card A
with `isCompleted = true` yields card order [B, C, A]. -/
theorem scenario_addCard_then_complete :
    ((addCard scenarioState "col-todo" "card-c" ⟨"Card C", none, none, none⟩).boards.map
        fun b => b.columns.map fun c => c.cards.map (·.id))
      = [[["card-a", "card-b", "card-c"]]] ∧
    ((updateCard (addCard scenarioState "col-todo" "card-c" ⟨"Card C", none, none, none⟩)
          "col-todo" "card-a" ⟨none, none, some true, none, none⟩).boards.map
        fun b => b.columns.map fun c => c.cards.map (·.id))
      = [[["card-b", "card-c", "card-a"]]] := by
  constructor <;> rfl

/-- C4: the drag reducer returns the collection unchanged when the event has
no destination; when source and destination have the same container id and
index; when no board matches the active-board pointer; and, for a card
event, when either referenced column id is missing from the active board. -/
theorem onDragEnd_noop (s : KanbanState) (r : DragResult) :
    (r.destination = none → onDragEnd s r = s) ∧
    (∀ d, r.destination = some d → d.droppableId = r.source.droppableId →
      d.index = r.source.index → onDragEnd s r = s) ∧
    (s.boards.find? (fun b => some b.id == s.activeBoardId) = none →
      onDragEnd s r = s) ∧
    (∀ d board, r.destination = some d → r.itemType = .CARD →
      s.boards.find? (fun b => some b.id == s.activeBoardId) = some board →
      (board.columns.find? (fun c => c.id == r.source.droppableId) = none ∨
        board.columns.find? (fun c => c.id == d.droppableId) = none) →
      onDragEnd s r = s) := by
  refine ⟨?_, ?_, ?_, ?_⟩
  · intro h
    unfold onDragEnd
    rw [h]
  · intro d hd hid hidx
    simp [onDragEnd, hd, hid, hidx]
  · intro h
    rcases hd : r.destination with _ | d
    · unfold onDragEnd
      rw [hd]
    · simp only [onDragEnd, hd, h]
      split <;> rfl
  · intro d board hd htype hboard hnone
    simp only [onDragEnd, hd, htype, hboard]
    rcases hnone with h | h
    · simp only [h]
      split <;> rfl
    · rcases hs : board.columns.find? (fun c => c.id == r.source.droppableId) with _ | sc <;>
        simp only [h, hs] <;> split <;> rfl

/-- Witness for `onDragEnd_noop`: a cancelled drag (no destination) on the
scenario state is a no-op. -/
theorem onDragEnd_noop_witness :
    onDragEnd scenarioState ⟨.CARD, ⟨"col-todo", 0⟩, none⟩ = scenarioState :=
  (onDragEnd_noop scenarioState ⟨.CARD, ⟨"col-todo", 0⟩, none⟩).1 rfl

/-- C2 fails as stated, in two ways.  (a) `updateCard` whose card id is
absent from an existing column of the active board still re-sorts that
column, so a collection whose column order violates the Sort Policy is
changed.  (b) `deleteBoard` of an absent board id that happens to equal a
stale active pointer rewrites the pointer to the first board's id even
though the referenced board does not exist. -/
theorem missing_id_noop_counterexample :
    (updateCard unsortedState "c1" "nope" ⟨none, none, none, none, none⟩ ≠
      unsortedState) ∧
    (deleteBoard staleState "ghost" ≠ staleState) ∧
    ((deleteBoard staleState "ghost").boards = staleState.boards) ∧
    ((deleteBoard staleState "ghost").activeBoardId = some "b1") := by
  refine ⟨by decide, by decide, by decide, by decide⟩

/-- C5 fails as stated: deleting the active board "b1" from a collection
whose other board has the empty string as id leaves that board first, yet
the pointer becomes null — `newBoards[0]?.id || null` treats the falsy
empty-string id as absent — rather than the first remaining board's id. -/
theorem deleteBoard_empty_id_counterexample :
    ((deleteBoard emptyIdState "b1").boards = [⟨"", "Y", []⟩]) ∧
    ((deleteBoard emptyIdState "b1").activeBoardId = none) ∧
    (deleteBoard emptyIdState "b1" ≠
      { boards := [⟨"", "Y", []⟩], activeBoardId := some "" }) := by
  refine ⟨by decide, by decide, by decide⟩

/-- A board-level map that leaves every matching board unchanged leaves the
state unchanged. -/
theorem state_map_eq_self {s : KanbanState} {g : BoardData → BoardData}
    (h : ∀ b ∈ s.boards, some b.id = s.activeBoardId → g b = b) :
    KanbanState.mk
        (s.boards.map fun b => if some b.id == s.activeBoardId then g b else b)
        s.activeBoardId
      = s := by
  have hm : (s.boards.map fun b => if some b.id == s.activeBoardId then g b else b)
      = s.boards :=
    map_id_of fun b hb => by
      by_cases hid : some b.id = s.activeBoardId
      · rw [if_pos (by simpa using hid), h b hb hid]
      · rw [if_neg (by simpa using hid)]
  rw [hm]

/-- A column-level map that leaves every matching column unchanged leaves
the column list unchanged. -/
theorem columns_map_eq_self {cols : List ColumnData} {columnId : String}
    {g : ColumnData → ColumnData} (h : ∀ c ∈ cols, c.id = columnId → g c = c) :
    (cols.map fun c => if c.id == columnId then g c else c) = cols :=
  map_id_of fun c hc => by
    by_cases hid : c.id = columnId
    · rw [if_pos (beq_iff_eq.mpr hid), h c hc hid]
    · rw [if_neg (by simpa using hid)]

/-- C2 (amended): on a collection whose columns obey the Sort Policy, every
Board Store operation returns the input unchanged whenever the board,
column, or card id it references is not present — with two qualifications
forced by the code: `updateCard` with a missing card id is only a no-op
when the matching column is policy-sorted (it unconditionally re-sorts),
and `deleteBoard` of a missing id leaves the boards unchanged but, when
the active pointer equals that missing id (a stale pointer), self-heals the
pointer to the first board's id — or null when the collection is empty or
that id is the (falsy) empty string — instead of leaving the state
untouched. -/
theorem missing_id_noop (s : KanbanState) (newId title color : String)
    (limit : Option Nat) (columnId cardId boardId : String) (u : ColumnUpdate)
    (d : NewCardData) (p : CardPatch) :
    ((∀ b ∈ s.boards, ¬ some b.id = s.activeBoardId) →
      addColumn s newId title color limit = s) ∧
    ((∀ b ∈ s.boards, some b.id = s.activeBoardId →
        ∀ c ∈ b.columns, ¬ c.id = columnId) →
      updateColumn s columnId u = s ∧ addCard s columnId newId d = s ∧
        updateCard s columnId cardId p = s ∧ deleteCard s columnId cardId = s ∧
        deleteColumn s columnId = s) ∧
    ((∀ b ∈ s.boards, some b.id = s.activeBoardId →
        ∀ c ∈ b.columns, c.id = columnId →
          c.cards.Pairwise cardLe ∧ ∀ card ∈ c.cards, ¬ card.id = cardId) →
      updateCard s columnId cardId p = s) ∧
    ((∀ b ∈ s.boards, some b.id = s.activeBoardId →
        ∀ c ∈ b.columns, c.id = columnId → ∀ card ∈ c.cards, ¬ card.id = cardId) →
      deleteCard s columnId cardId = s) ∧
    ((∀ b ∈ s.boards, ¬ b.id = boardId) →
      (deleteBoard s boardId).boards = s.boards ∧
        (¬ s.activeBoardId = some boardId → deleteBoard s boardId = s) ∧
        (s.activeBoardId = some boardId →
          (s.boards = [] → (deleteBoard s boardId).activeBoardId = none) ∧
          (∀ b, s.boards.head? = some b →
            (¬ b.id = "" → (deleteBoard s boardId).activeBoardId = some b.id) ∧
            (b.id = "" → (deleteBoard s boardId).activeBoardId = none)))) := by
  refine ⟨?_, ?_, ?_, ?_, ?_⟩
  · intro h
    unfold addColumn
    exact state_map_eq_self fun b hb hid => absurd hid (h b hb)
  · intro h
    refine ⟨?_, ?_, ?_, ?_, ?_⟩
    · unfold updateColumn
      exact state_map_eq_self fun b hb hid => by
        rw [columns_map_eq_self fun c hc hcid => absurd hcid (h b hb hid c hc)]
    · unfold addCard
      exact state_map_eq_self fun b hb hid => by
        rw [columns_map_eq_self fun c hc hcid => absurd hcid (h b hb hid c hc)]
    · unfold updateCard
      exact state_map_eq_self fun b hb hid => by
        rw [columns_map_eq_self fun c hc hcid => absurd hcid (h b hb hid c hc)]
    · unfold deleteCard
      exact state_map_eq_self fun b hb hid => by
        rw [columns_map_eq_self fun c hc hcid => absurd hcid (h b hb hid c hc)]
    · unfold deleteColumn
      exact state_map_eq_self fun b hb hid => by
        rw [List.filter_eq_self.mpr fun c hc => by simpa using h b hb hid c hc]
  · intro h
    unfold updateCard
    exact state_map_eq_self fun b hb hid => by
      rw [columns_map_eq_self fun c hc hcid => ?_]
      obtain ⟨hsorted, hnocard⟩ := h b hb hid c hc hcid
      have hmap : (c.cards.map fun card =>
          if card.id == cardId then applyPatch card p else card) = c.cards :=
        map_id_of fun card hcard => by
          rw [if_neg (by simpa using hnocard card hcard)]
      rw [hmap, sortCards_of_sorted hsorted]
  · intro h
    unfold deleteCard
    exact state_map_eq_self fun b hb hid => by
      rw [columns_map_eq_self fun c hc hcid => ?_]
      rw [List.filter_eq_self.mpr fun card hcard => by
        simpa using h b hb hid c hc hcid card hcard]
  · intro h
    have hfilter : (s.boards.filter fun b => !(b.id == boardId)) = s.boards :=
      List.filter_eq_self.mpr fun b hb => by simpa using h b hb
    refine ⟨?_, ?_, ?_⟩
    · simp only [deleteBoard]
      exact hfilter
    · intro hactive
      simp only [deleteBoard, hfilter]
      rw [if_neg (by simpa using hactive)]
    · intro hactive
      constructor
      · intro hempty
        simp only [deleteBoard, hfilter]
        rw [if_pos (by simp [hactive])]
        simp only [hempty]
        rfl
      · intro b hb
        constructor
        · intro hne
          simp only [deleteBoard, hfilter]
          rw [if_pos (by simp [hactive])]
          simp only [hb]
          rw [if_neg (by simpa using hne)]
        · intro he
          simp only [deleteBoard, hfilter]
          rw [if_pos (by simp [hactive])]
          simp only [hb]
          rw [if_pos (by simpa using he)]

/-- Witness for `missing_id_noop`: on the single-board scenario state every
clause applies with ids that are nowhere present. -/
theorem missing_id_noop_witness :
    (addColumn { boards := [], activeBoardId := some "board-1" } "nid" "T" "bg" none
      = { boards := [], activeBoardId := some "board-1" }) ∧
    (updateColumn scenarioState "ghost-col" ⟨"T", "bg", none⟩ = scenarioState) ∧
    (updateCard scenarioState "col-todo" "ghost-card" ⟨none, none, none, none, none⟩
      = scenarioState) ∧
    (deleteCard scenarioState "col-todo" "ghost-card" = scenarioState) ∧
    (deleteBoard scenarioState "ghost-board" = scenarioState) ∧
    ((deleteBoard staleState "ghost").activeBoardId = some "b1") := by
  have h0 := missing_id_noop { boards := [], activeBoardId := some "board-1" }
    "nid" "T" "bg" none "ghost-col" "ghost-card" "ghost-board" ⟨"T", "bg", none⟩
    ⟨"T", none, none, none⟩ ⟨none, none, none, none, none⟩
  have h := missing_id_noop scenarioState "nid" "T" "bg" none "ghost-col"
    "ghost-card" "ghost-board" ⟨"T", "bg", none⟩ ⟨"T", none, none, none⟩
    ⟨none, none, none, none, none⟩
  have hs := missing_id_noop staleState "nid" "T" "bg" none "ghost-col"
    "ghost-card" "ghost" ⟨"T", "bg", none⟩ ⟨"T", none, none, none⟩
    ⟨none, none, none, none, none⟩
  refine ⟨h0.1 (by decide), (h.2.1 (by decide)).1, h.2.2.1 ?_, h.2.2.2.1 (by decide),
    ((h.2.2.2.2 (by decide)).2.1 (by decide)),
    (((hs.2.2.2.2 (by decide)).2.2 rfl).2 ⟨"b1", "X", []⟩ (by decide)).1 (by decide)⟩
  intro b hb hid c hc hcid
  have hb1 : b = ⟨"board-1", "Board", [⟨"col-todo", "To Do", "bg-rose-500/20", none,
      [cardA, cardB]⟩]⟩ := by
    simpa [scenarioState] using hb
  subst hb1
  have hc1 : c = ⟨"col-todo", "To Do", "bg-rose-500/20", none, [cardA, cardB]⟩ := by
    simpa using hc
  subst hc1
  exact ⟨by decide, by decide⟩

/-- C5 (amended): on a collection with pairwise-distinct board ids, deleting
a present board id removes exactly that board (one board fewer, a sublist
of the original order, membership characterised by the id); if the deleted
board was active the pointer becomes the first remaining board's id — or
null when no board remains or when that id is the (falsy) empty string —
and if it was not active the pointer is unchanged. -/
theorem deleteBoard_spec (s : KanbanState) (boardId : String) (b0 : BoardData)
    (hmem : b0 ∈ s.boards) (hid : b0.id = boardId)
    (hnodup : (s.boards.map (·.id)).Nodup) :
    ((deleteBoard s boardId).boards.length + 1 = s.boards.length) ∧
    (List.Sublist (deleteBoard s boardId).boards s.boards) ∧
    (∀ b, b ∈ (deleteBoard s boardId).boards ↔ b ∈ s.boards ∧ ¬ b.id = boardId) ∧
    (s.activeBoardId = some boardId →
      ((deleteBoard s boardId).boards = [] →
        (deleteBoard s boardId).activeBoardId = none) ∧
      (∀ b, (deleteBoard s boardId).boards.head? = some b →
        (¬ b.id = "" → (deleteBoard s boardId).activeBoardId = some b.id) ∧
        (b.id = "" → (deleteBoard s boardId).activeBoardId = none))) ∧
    (¬ s.activeBoardId = some boardId →
      (deleteBoard s boardId).activeBoardId = s.activeBoardId) := by
  obtain ⟨l₁, l₂, hsplit⟩ := List.append_of_mem hmem
  have hnd : ((l₁ ++ b0 :: l₂).map (·.id)).Nodup := hsplit ▸ hnodup
  rw [List.map_append, List.map_cons, List.nodup_append] at hnd
  have h1 : ∀ b ∈ l₁, ¬ b.id = boardId := fun b hb hbid =>
    hnd.2.2 (List.mem_map_of_mem _ hb) (by
      rw [hbid, ← hid]
      exact List.mem_cons_self _ _)
  have h2 : ∀ b ∈ l₂, ¬ b.id = boardId := fun b hb hbid =>
    (List.nodup_cons.mp hnd.2.1).1 (by
      rw [hid, ← hbid]
      exact List.mem_map_of_mem _ hb)
  have hfil : (s.boards.filter fun b => !(b.id == boardId)) = l₁ ++ l₂ := by
    rw [hsplit, List.filter_append, List.filter_cons,
      List.filter_eq_self.mpr fun b hb => by simpa using h1 b hb,
      List.filter_eq_self.mpr fun b hb => by simpa using h2 b hb]
    simp [hid]
  have hboards : (deleteBoard s boardId).boards = l₁ ++ l₂ := by
    simpa only [deleteBoard] using hfil
  refine ⟨?_, ?_, ?_, ?_, ?_⟩
  · rw [hboards, hsplit]
    simp only [List.length_append, List.length_cons]
    omega
  · rw [hboards, hsplit]
    exact List.Sublist.append_left (List.sublist_cons_self b0 l₂) l₁
  · intro b
    simp only [deleteBoard]
    simp [List.mem_filter]
  · intro hact
    constructor
    · intro hempty
      simp only [deleteBoard] at hempty ⊢
      rw [if_pos (by simp [hact])]
      simp only [hempty]
      rfl
    · intro b hb
      simp only [deleteBoard] at hb ⊢
      rw [if_pos (by simp [hact])]
      simp only [hb]
      constructor
      · intro hne
        rw [if_neg (by simpa using hne)]
      · intro he
        rw [if_pos (by simpa using he)]
  · intro hact
    simp only [deleteBoard]
    rw [if_neg (by simpa using hact)]

/-- Witness for `deleteBoard_spec`: deleting the active board "b1" of the
two-board fixture leaves one board and, its id being the empty string, a
null pointer. -/
theorem deleteBoard_spec_witness :
    (deleteBoard emptyIdState "b1").boards.length + 1
        = emptyIdState.boards.length ∧
    (deleteBoard emptyIdState "b1").activeBoardId = none := by
  have h := deleteBoard_spec emptyIdState "b1" ⟨"b1", "X", []⟩ (by decide) rfl
    (by decide)
  exact ⟨h.1, ((h.2.2.2.1 rfl).2 ⟨"", "Y", []⟩ (by decide)).2 rfl⟩

/-- Filtering out a present key from a list with pairwise-distinct keys
removes exactly one element. -/
theorem filter_ne_key_length {f : α → String} :
    ∀ {l : List α} {x : α}, (l.map f).Nodup → x ∈ l →
      (l.filter fun a => !(f a == f x)).length + 1 = l.length
  | a :: l, x, hnodup, hx => by
    rw [List.map_cons, List.nodup_cons] at hnodup
    rcases List.mem_cons.mp hx with rfl | hx
    · rw [List.filter_cons_of_neg (by simp),
        List.filter_eq_self.mpr fun b hb => by
          simp only [Bool.not_eq_eq_eq_not, Bool.not_true, beq_eq_false_iff_ne, ne_eq]
          intro hba
          exact hnodup.1 (hba ▸ List.mem_map_of_mem f hb)]
      rfl
    · rw [List.filter_cons_of_pos (by
        simp only [Bool.not_eq_eq_eq_not, Bool.not_true, beq_eq_false_iff_ne, ne_eq]
        intro hax
        exact hnodup.1 (hax ▸ List.mem_map_of_mem f hx)),
        List.length_cons, filter_ne_key_length hnodup.2 hx]
      rfl

/-- C7: on a collection whose target column — the column of the active
board matching the given column id — is ordered per the Sort Policy and
has pairwise-distinct card ids, `deleteCard` removes exactly the card with
the given id: the resulting column's card sequence is the original one
with that card filtered out (no re-sort applied), the survivors keep their
relative order, the column is still policy-sorted, and exactly one card is
gone. -/
theorem deleteCard_spec (s : KanbanState) (columnId cardId : String)
    (board : BoardData) (col : ColumnData) (c0 : CardData)
    (hboard : s.boards.find? (fun b => some b.id == s.activeBoardId) = some board)
    (hcol : board.columns.find? (fun c => c.id == columnId) = some col)
    (hsorted : col.cards.Pairwise cardLe)
    (hnodup : (col.cards.map (·.id)).Nodup)
    (hc0 : c0 ∈ col.cards) (hc0id : c0.id = cardId) :
    ∃ board' col',
      (deleteCard s columnId cardId).boards.find?
          (fun b => some b.id == s.activeBoardId) = some board' ∧
      board'.columns.find? (fun c => c.id == columnId) = some col' ∧
      col'.cards = col.cards.filter (fun card => !(card.id == cardId)) ∧
      List.Sublist col'.cards col.cards ∧
      col'.cards.Pairwise cardLe ∧
      (∀ card, card ∈ col'.cards ↔ card ∈ col.cards ∧ ¬ card.id = cardId) ∧
      col'.cards.length + 1 = col.cards.length := by
  subst hc0id
  refine ⟨{ board with columns := board.columns.map fun c =>
      if c.id == columnId then
        { c with cards := c.cards.filter fun card => !(card.id == c0.id) }
      else c },
    { col with cards := col.cards.filter fun card => !(card.id == c0.id) },
    ?_, ?_, rfl, List.filter_sublist col.cards,
    List.Pairwise.sublist (List.filter_sublist col.cards) hsorted, ?_, ?_⟩
  · simp only [deleteCard]
    exact find?_map_replace
      (g := fun board => { board with columns := board.columns.map fun c =>
        if c.id == columnId then
          { c with cards := c.cards.filter fun card => !(card.id == c0.id) }
        else c })
      (fun b hb => hb) hboard
  · exact find?_map_replace
      (g := fun c => { c with cards := c.cards.filter fun card => !(card.id == c0.id) })
      (fun c hc => hc) hcol
  · intro card
    simp [List.mem_filter]
  · exact filter_ne_key_length hnodup hc0

/-- Witness for `deleteCard_spec`: deleting Card A from the scenario board
leaves its "To Do" column with a single card. -/
theorem deleteCard_spec_witness :
    ∃ board' col',
      (deleteCard scenarioState "col-todo" "card-a").boards.find?
          (fun b => some b.id == scenarioState.activeBoardId) = some board' ∧
      board'.columns.find? (fun c => c.id == "col-todo") = some col' ∧
      col'.cards = [cardA, cardB].filter (fun card => !(card.id == "card-a")) ∧
      col'.cards.length + 1 = 2 := by
  obtain ⟨b', c', h1, h2, h3, _, _, _, h7⟩ :=
    deleteCard_spec scenarioState "col-todo" "card-a"
      ⟨"board-1", "Board", [⟨"col-todo", "To Do", "bg-rose-500/20", none,
        [cardA, cardB]⟩]⟩
      ⟨"col-todo", "To Do", "bg-rose-500/20", none, [cardA, cardB]⟩
      cardA rfl rfl (by decide) (by decide) (by decide) rfl
  exact ⟨b', c', h1, h2, h3, h7⟩

/-- C9: `updateColumn` rewrites exactly the title, color and limit of the
column of the active board that matches the given id — the column keeps
its id and card sequence — while every other column, every board whose id
differs from the active pointer, and the pointer itself are unchanged. -/
theorem updateColumn_spec (s : KanbanState) (columnId : String) (u : ColumnUpdate) :
    (updateColumn s columnId u).activeBoardId = s.activeBoardId ∧
    (updateColumn s columnId u).boards.length = s.boards.length ∧
    (∀ (i : Nat) (b : BoardData), s.boards[i]? = some b → ¬ some b.id = s.activeBoardId →
      (updateColumn s columnId u).boards[i]? = some b) ∧
    (∀ (i : Nat) (b : BoardData), s.boards[i]? = some b → some b.id = s.activeBoardId →
      ∃ b', (updateColumn s columnId u).boards[i]? = some b' ∧
        b'.id = b.id ∧ b'.name = b.name ∧ b'.columns.length = b.columns.length ∧
        ∀ (j : Nat) (c : ColumnData), b.columns[j]? = some c →
          b'.columns[j]? = some (if c.id = columnId
            then { c with title := u.title, color := u.color, limit := u.limit }
            else c)) := by
  refine ⟨rfl, by simp [updateColumn], ?_, ?_⟩
  · intro i b hib hne
    simp only [updateColumn, List.getElem?_map, hib, Option.map_some']
    rw [if_neg (by simpa using hne)]
  · intro i b hib hid
    refine ⟨{ b with columns := b.columns.map fun c =>
        if c.id == columnId then
          { c with title := u.title, color := u.color, limit := u.limit }
        else c }, ?_, rfl, rfl, by simp, ?_⟩
    · simp only [updateColumn, List.getElem?_map, hib, Option.map_some']
      rw [if_pos (by simpa using hid)]
    · intro j c hjc
      simp only [List.getElem?_map, hjc, Option.map_some']
      by_cases hc : c.id = columnId
      · rw [if_pos (beq_iff_eq.mpr hc), if_pos hc]
      · rw [if_neg (by simpa using hc), if_neg hc]

/-- Witness for `updateColumn_spec`: retitling the scenario's "To Do" column
keeps its id and cards. -/
theorem updateColumn_spec_witness :
    ∃ b', (updateColumn scenarioState "col-todo" ⟨"Next", "bg", some 3⟩).boards[0]?
        = some b' ∧
      b'.id = "board-1" ∧
      b'.columns[0]? = some ⟨"col-todo", "Next", "bg", some 3, [cardA, cardB]⟩ := by
  obtain ⟨b', h1, h2, _, _, h5⟩ :=
    (updateColumn_spec scenarioState "col-todo" ⟨"Next", "bg", some 3⟩).2.2.2 0
      ⟨"board-1", "Board", [⟨"col-todo", "To Do", "bg-rose-500/20", none,
        [cardA, cardB]⟩]⟩ (by decide) (by decide)
  refine ⟨b', h1, h2, ?_⟩
  have := h5 0 ⟨"col-todo", "To Do", "bg-rose-500/20", none, [cardA, cardB]⟩ (by decide)
  rw [this]
  rfl

theorem framePreserved_refl (s : KanbanState) : framePreserved s s :=
  ⟨rfl, rfl, fun _ _ h _ => h⟩

/-- Any transition that maps the board list, touching only boards matching
the active pointer, preserves the frame. -/
theorem framePreserved_map (s : KanbanState) (g : BoardData → BoardData) :
    framePreserved s
      (KanbanState.mk
        (s.boards.map fun b => if some b.id == s.activeBoardId then g b else b)
        s.activeBoardId) := by
  refine ⟨rfl, by simp, ?_⟩
  intro i b hib hne
  simp only [List.getElem?_map, hib, Option.map_some']
  rw [if_neg (by simpa using hne)]

/-- C10: every column- and card-level mutation and every drag transition
modifies at most the board whose id matches the active pointer: all other
boards and the pointer itself are unchanged. -/
theorem frame_active_board (s : KanbanState) (newId title color : String)
    (limit : Option Nat) (columnId cardId : String) (u : ColumnUpdate)
    (d : NewCardData) (p : CardPatch) (r : DragResult) :
    framePreserved s (addColumn s newId title color limit) ∧
    framePreserved s (updateColumn s columnId u) ∧
    framePreserved s (deleteColumn s columnId) ∧
    framePreserved s (addCard s columnId newId d) ∧
    framePreserved s (updateCard s columnId cardId p) ∧
    framePreserved s (deleteCard s columnId cardId) ∧
    framePreserved s (onDragEnd s r) := by
  refine ⟨framePreserved_map s _, framePreserved_map s _, framePreserved_map s _,
    framePreserved_map s _, framePreserved_map s _, framePreserved_map s _, ?_⟩
  unfold onDragEnd
  repeat' first
    | exact framePreserved_refl s
    | exact framePreserved_map s _
    | split

/-- Witness for `frame_active_board`: adding a card on the active board "b1"
leaves the non-active board "b2" in place. -/
theorem frame_active_board_witness :
    (addCard twoBoardState "c" "id" ⟨"T", none, none, none⟩).boards[1]?
      = some ⟨"b2", "Y", []⟩ := by
  have h := frame_active_board twoBoardState "id" "T" "bg" none "c" "card"
    ⟨"T", "bg", none⟩ ⟨"T", none, none, none⟩ ⟨none, none, none, none, none⟩
    ⟨.CARD, ⟨"c", 0⟩, none⟩
  exact h.2.2.2.1.2.2 1 ⟨"b2", "Y", []⟩ (by decide) (by decide)

/-- `find?_map_replace` specialised to a constant replacement. -/
theorem find?_map_const_replace {p : α → Bool} {u : α} (hu : p u = true) :
    ∀ {l : List α} {x : α}, l.find? p = some x →
      (l.map fun a => if p a then u else a).find? p = some u
  | a :: l, x, h => by
    by_cases hpa : p a = true
    · rw [List.map_cons, if_pos hpa, List.find?_cons_of_pos _ hu]
    · rw [List.find?_cons_of_neg _ (by simpa using hpa)] at h
      rw [List.map_cons, if_neg (by simpa using hpa),
        List.find?_cons_of_neg _ (by simpa using hpa)]
      exact find?_map_const_replace hu h

/-- Replacing the matching boards by a single board of equal card count
preserves the card count seen through `find?`. -/
theorem find?_map_const_count {p : BoardData → Bool} {l : List BoardData}
    {board u : BoardData} (h : l.find? p = some board) (hu : p u = true)
    (hcount : boardCardCount u = boardCardCount board) :
    (((l.map fun a => if p a then u else a).find? p).map boardCardCount)
      = some (boardCardCount board) := by
  rw [find?_map_const_replace hu h, Option.map_some', hcount]

/-- The cross-column double replacement preserves the total card count when
each key matches as often as the other. -/
theorem sum_map_replace2_eq {x' y' : ColumnData} {kx ky : String}
    (hk : ¬ kx = ky) {cols : List ColumnData}
    (hx : ∀ c ∈ cols, c.id = kx → c.cards.length = x'.cards.length + 1)
    (hy : ∀ c ∈ cols, c.id = ky → c.cards.length + 1 = y'.cards.length)
    (hcnt : cols.countP (fun c => c.id == kx) = cols.countP (fun c => c.id == ky)) :
    ((cols.map fun c => if c.id == kx then x'
          else if c.id == ky then y' else c).map fun c => c.cards.length).sum
      = (cols.map fun c => c.cards.length).sum := by
  have h := sum_map_replace2_count hk hx hy
  omega

/-- C3: a card drop event whose source and destination columns are both
present on the active board (whose column ids are pairwise distinct, per
the data-model invariant) and whose source index is in range preserves the
total card count of the active board — for the same-column reorder, the
cross-column move, and the identity early-return alike. -/
theorem onDragEnd_card_count (s : KanbanState) (r : DragResult) (d : DropPos)
    (board : BoardData) (startCol finishCol : ColumnData)
    (hdest : r.destination = some d)
    (htype : r.itemType = .CARD)
    (hboard : s.boards.find? (fun b => some b.id == s.activeBoardId) = some board)
    (hnodup : (board.columns.map (·.id)).Nodup)
    (hstart : board.columns.find? (fun c => c.id == r.source.droppableId)
      = some startCol)
    (hfinish : board.columns.find? (fun c => c.id == d.droppableId) = some finishCol)
    (hidx : r.source.index < startCol.cards.length) :
    (((onDragEnd s r).boards.find? (fun b => some b.id == s.activeBoardId)).map
        boardCardCount)
      = some (boardCardCount board) := by
  have hstartmem : startCol ∈ board.columns := List.mem_of_find?_eq_some hstart
  have hfinmem : finishCol ∈ board.columns := List.mem_of_find?_eq_some hfinish
  obtain ⟨card, hget⟩ : ∃ c, startCol.cards[r.source.index]? = some c :=
    ⟨_, List.getElem?_eq_getElem hidx⟩
  simp only [onDragEnd, hdest, htype]
  by_cases hsame :
      (d.droppableId == r.source.droppableId && d.index == r.source.index) = true
  · rw [if_pos hsame, hboard]
    rfl
  · rw [if_neg hsame]
    simp only [hboard, hstart, hfinish, hget]
    by_cases hcols : (startCol.id == finishCol.id) = true
    · rw [if_pos hcols]
      refine find?_map_const_count hboard ?_ ?_
      · exact List.find?_some (p := fun (b : BoardData) => some b.id == s.activeBoardId) (a := board) hboard
      simp only [boardCardCount]
      refine sum_map_replace_eq fun c hc hcid => ?_
      have hc' : c = startCol := mem_key_unique hnodup hc hstartmem hcid
      subst hc'
      simp only [sortCards_length, length_spliceInsert,
        List.length_eraseIdx_of_lt hidx]
      omega
    · rw [if_neg hcols]
      have hkne : ¬ startCol.id = finishCol.id := fun h => hcols (beq_iff_eq.mpr h)
      refine find?_map_const_count hboard ?_ ?_
      · exact List.find?_some (p := fun (b : BoardData) => some b.id == s.activeBoardId) (a := board) hboard
      simp only [boardCardCount]
      refine sum_map_replace2_eq hkne ?_ ?_ ?_
      · intro c hc hcid
        have hc' : c = startCol := mem_key_unique hnodup hc hstartmem hcid
        subst hc'
        simp only [sortCards_length, List.length_eraseIdx_of_lt hidx]
        omega
      · intro c hc hcid
        have hc' : c = finishCol := mem_key_unique hnodup hc hfinmem hcid
        subst hc'
        simp only [sortCards_length, length_spliceInsert]
      · exact (countP_key_of_nodup hnodup hstartmem rfl).trans
          (countP_key_of_nodup hnodup hfinmem rfl).symm

/-- Witness for `onDragEnd_card_count`: reordering a card inside the
scenario's "To Do" column keeps the board's total card count. -/
theorem onDragEnd_card_count_witness :
    (((onDragEnd scenarioState
          ⟨.CARD, ⟨"col-todo", 0⟩, some ⟨"col-todo", 1⟩⟩).boards.find?
        (fun b => some b.id == scenarioState.activeBoardId)).map boardCardCount)
      = some (boardCardCount ⟨"board-1", "Board",
          [⟨"col-todo", "To Do", "bg-rose-500/20", none, [cardA, cardB]⟩]⟩) :=
  onDragEnd_card_count scenarioState
    ⟨.CARD, ⟨"col-todo", 0⟩, some ⟨"col-todo", 1⟩⟩ ⟨"col-todo", 1⟩
    ⟨"board-1", "Board", [⟨"col-todo", "To Do", "bg-rose-500/20", none,
      [cardA, cardB]⟩]⟩
    ⟨"col-todo", "To Do", "bg-rose-500/20", none, [cardA, cardB]⟩
    ⟨"col-todo", "To Do", "bg-rose-500/20", none, [cardA, cardB]⟩
    rfl rfl (by decide) (by decide) (by decide) (by decide) (by decide)

end Kanban
